import Mathlib

/-!
Shallow embedding of the `threa` concurrency-lifecycle library
(`src/threa/runnable.py`, `src/threa/thread.py`, `src/threa/collection.py`,
`src/threa/wrapper.py`) in Lean 4, together with theorems settling the
frozen claims about it.

Modelling conventions:
* Python exceptions are modelled by explicit payloads (`Nat`) carried in
  `Except`/`Option` values; a function that may raise returns the error
  explicitly instead of propagating it.
* Thread-local sequential code (one loop body, one method call) is modelled
  as a pure state-transformer; cross-thread interleavings are modelled by an
  explicit schedule of per-worker steps.
* `threading.Event` flags are modelled as `Bool` fields; where the claim is
  about the observer callbacks of an `Event` (claim C9) the callback list is
  modelled explicitly.
-/

namespace Threa

/-! ## `Event` (`src/threa/runnable.py`, class `Event`)

An `Event` holds a boolean plus a list of zero-argument callbacks invoked on
every `set`/`clear` (`[c() for c in self.on_set]`).  A callback is modelled
as a function from an ambient state `σ` to the new state together with
`Option Nat`: `some e` means the callback raised exception `e` after having
performed its state effects.  The Python list comprehension evaluates the
callbacks left to right and an exception propagates out immediately,
abandoning the rest of the list. -/

/-- A callback registered on an `Event`: mutates ambient state and may
raise (`some e`). -/
def EvCallback (σ : Type) : Type := σ → σ × Option Nat

/-- Run the `on_set` callbacks left to right, as the list comprehension
`[c() for c in self.on_set]` does: the first exception aborts the iteration
and surfaces to the caller. -/
def runCallbacks {σ : Type} : List (EvCallback σ) → σ → σ × Option Nat
  | [], s => (s, none)
  | c :: rest, s =>
    match c s with
    | (s1, none) => runCallbacks rest s1
    | (s1, some e) => (s1, some e)

/-- The state of an `Event`: its boolean value and its registered
callbacks. -/
structure EventModel (σ : Type) where
  value : Bool
  on_set : List (EvCallback σ)

/-- `Event.set`: `super().set()` updates the boolean first, then the
callbacks run.  Returns the new event, the new ambient state, and the
exception (if any) that surfaced to the caller of `set`. -/
def eventSet {σ : Type} (ev : EventModel σ) (s : σ) :
    EventModel σ × σ × Option Nat :=
  let r := runCallbacks ev.on_set s
  ({ ev with value := true }, r.1, r.2)

/-- `Event.clear`: `super().clear()` updates the boolean first, then the
callbacks run. -/
def eventClear {σ : Type} (ev : EventModel σ) (s : σ) :
    EventModel σ × σ × Option Nat :=
  let r := runCallbacks ev.on_set s
  ({ ev with value := false }, r.1, r.2)

/-! ## `ThreadBase.run` (`src/threa/thread.py`, lines 92-123)

The run loop of a `ThreadBase`.  The user `callback` is modelled by a
script: the n-th entry tells whether the n-th invocation returns normally
(`CallRes.ok`) or raises (`CallRes.exc e`).  The optional exception handler
is modelled by `handler : Option (Nat → Bool)`: `none` means no handler is
configured; `some hr` means a handler is configured and `hr e = true` means
the handler itself raises when invoked on exception `e`.

The loop `while self.running: ...` is modelled by structural recursion on
the script; if the script is exhausted while `running` is still set the
model returns `none` (the real loop would keep invoking the callback), so
every `some` result is a genuine loop exit. -/

/-- Result of one invocation of the user callback: normal return or an
exception with payload `e`. -/
inductive CallRes where
  | ok : CallRes
  | exc : Nat → CallRes
  deriving DecidableEq, Repr

/-- Configuration of a `ThreadBase`: the `looping` flag and the optional
exception handler (`some hr`, with `hr e = true` iff the handler raises on
exception `e`). -/
structure TBConfig where
  looping : Bool
  handler : Option (Nat → Bool)

/-- Observable state of a `ThreadBase`: its `running` and `stopped` flags,
the number of `log.error` calls made by the local `tb()` helper, and the
list of exception payloads passed to the configured handler, in order. -/
structure TBState where
  running : Bool
  stopped : Bool
  errLog : Nat
  handlerCalls : List Nat
  deriving DecidableEq, Repr

/-- The fresh state of a `ThreadBase` before `run` begins. -/
def TBState.init : TBState :=
  { running := false, stopped := false, errLog := 0, handlerCalls := [] }

/-- `ThreadBase.stop` (lines 125-127): `self.running.clear()` only.  It
does not touch `stopped`. -/
def tbStop (s : TBState) : TBState :=
  { s with running := false }

/-- The local helper `tb()` inside `run`: logs the traceback with
`log.error` and calls `self.stop()`. -/
def tbError (s : TBState) : TBState :=
  tbStop { s with errLog := s.errLog + 1 }

/-- One iteration body of the `while self.running` loop of
`ThreadBase.run`, given the result `r` of this invocation of
`self.callback()`:
* normal return and `looping = false` → `self.stop()`;
* normal return and `looping = true` → nothing (loop re-checks `running`);
* exception `e` with a handler → the handler is invoked with `e`; if the
  handler itself raises, `tb()`; otherwise `self.stop()`;
* exception with no handler → `tb()`. -/
def tbLoopBody (cfg : TBConfig) (s : TBState) (r : CallRes) : TBState :=
  match r with
  | .ok => if cfg.looping then s else tbStop s
  | .exc e =>
    match cfg.handler with
    | none => tbError s
    | some hr =>
      let s1 := { s with handlerCalls := s.handlerCalls ++ [e] }
      if hr e then tbError s1 else tbStop s1

/-- The `while self.running` loop, driven by the callback script.  Returns
`none` when the script runs out while `running` is still set (the real loop
would continue); returns `some s` when the loop exits. -/
def tbLoop (cfg : TBConfig) : List CallRes → TBState → Option TBState
  | script, s =>
    match script with
    | [] => if s.running then none else some s
    | r :: rest =>
      if s.running then tbLoop cfg rest (tbLoopBody cfg s r) else some s

/-- `ThreadBase.run` (lines 92-123).  `preRunOk = false` models `pre_run()`
raising: the fault is caught, `tb()` logs it and clears `running`, and `run`
returns at once — the trailing `self.stopped.set()` is *not* executed.
Otherwise `self.running.set()`, the loop runs, and on loop exit
`self.stopped.set()`. -/
def tbRun (cfg : TBConfig) (preRunOk : Bool) (script : List CallRes)
    (s : TBState) : Option TBState :=
  if preRunOk then
    (tbLoop cfg script { s with running := true }).map
      fun s1 => { s1 with stopped := true }
  else
    some (tbError s)

/-! ## `Runnable` flags and the context-manager protocol
(`src/threa/runnable.py`, lines 93-133)

For claims about stop ordering and the `with`-statement we record the flag
mutations and delegated calls as an ordered trace of primitive actions. -/

/-- Primitive observable actions of a `Runnable` and of the objects it
delegates to. -/
inductive RAct where
  | setOwnRunning : Bool → RAct
  | setOwnStopped : Bool → RAct
  | callStart : RAct
  | callFinish : RAct
  | callJoin : RAct
  | callStop : RAct
  | wrappedStart : RAct
  | wrappedStop : RAct
  | wrappedJoin : RAct
  deriving DecidableEq, Repr

/-- Flag state of a plain `Runnable`, with the trace of actions performed
so far. -/
structure RState where
  running : Bool
  stopped : Bool
  trace : List RAct
  deriving DecidableEq, Repr

/-- A fresh `Runnable`: both flags down, empty trace. -/
def RState.init : RState :=
  { running := false, stopped := false, trace := [] }

/-- `Runnable.start` (lines 93-98): `self.running = True`. -/
def runnableStart (s : RState) : RState :=
  { s with running := true, trace := s.trace ++ [.setOwnRunning true] }

/-- `Runnable.stop` (lines 100-106): `self.running = False` then
`self.stopped = True`. -/
def runnableStop (s : RState) : RState :=
  { s with
    running := false
    stopped := true
    trace := s.trace ++ [.setOwnRunning false, .setOwnStopped true] }

/-- `Runnable.finish` (lines 108-113): delegates to `self.stop()`. -/
def runnableFinish (s : RState) : RState :=
  runnableStop s

/-- `Runnable.join` (lines 115-116): a no-op for the base class. -/
def runnableJoin (s : RState) : RState :=
  s

/-- The exception class observed by `__exit__`: `none` is a normal exit,
`some .keyboardInterrupt` is a `KeyboardInterrupt`, `some .other` is any
other exception type. -/
inductive ExitExc where
  | keyboardInterrupt : ExitExc
  | other : ExitExc
  deriving DecidableEq, Repr

/-- The trace of lifecycle calls made by `Runnable.__exit__`
(lines 122-133): `exc_type in (None, KeyboardInterrupt)` leads to
`finish()` and then `join()` iff `join_on_exit`; any other exception type
leads to `stop()` alone. -/
def runnableExit (join_on_exit : Bool) (exc : Option ExitExc) : List RAct :=
  if exc = none ∨ exc = some .keyboardInterrupt then
    [.callFinish] ++ (if join_on_exit then [.callJoin] else [])
  else
    [.callStop]

/-- The trace of lifecycle calls made by `Runnable.__enter__`
(lines 118-120): `self.start()`, then the handle itself is returned. -/
def runnableEnter : List RAct :=
  [.callStart]

/-! ## `Wrapper` (`src/threa/wrapper.py`)

A `Wrapper` delegates to a duck-typed `wrapped` object; each of
`start`/`stop`/`join` is looked up with `getattr(..., None)` and invoked
only when present.  The wrapped object's capabilities are three booleans;
its own internal state never feeds back into the wrapper's flags. -/

/-- Which of `start`/`stop`/`join` the wrapped duck-typed object actually
exposes. -/
structure WrappedCaps where
  hasStart : Bool
  hasStop : Bool
  hasJoin : Bool
  deriving DecidableEq, Repr

/-- `Wrapper.start`: `super().start()` (sets the wrapper's own `running`)
then `self.wrapped.start()` when present. -/
def wrapperStart (w : WrappedCaps) (s : RState) : RState :=
  let s1 := runnableStart s
  if w.hasStart then { s1 with trace := s1.trace ++ [.wrappedStart] } else s1

/-- `Wrapper.stop`: `super().stop()` (clears `running`, sets `stopped`)
then `self.wrapped.stop()` when present. -/
def wrapperStop (w : WrappedCaps) (s : RState) : RState :=
  let s1 := runnableStop s
  if w.hasStop then { s1 with trace := s1.trace ++ [.wrappedStop] } else s1

/-- `Wrapper.join`: `super().join(timeout)` (a no-op) then
`self.wrapped.join(timeout)` when present. -/
def wrapperJoin (w : WrappedCaps) (s : RState) : RState :=
  let s1 := runnableJoin s
  if w.hasJoin then { s1 with trace := s1.trace ++ [.wrappedJoin] } else s1

/-! ## `HasRunnables` (`src/threa/collection.py`, lines 14-44)

### Composite `running` via `_on_start`

Each child's `running` event carries the composite's `_on_start` callback,
so every time a child signals running the composite re-checks
`all(r.running for r in self.runnables)` and, if its own `running` is not
yet set, calls `super().start()` which sets it.  We model the children's
`running` flags as a `List Bool` and a signal as an index into it. -/

/-- Composite state for the `_on_start` protocol: children's `running`
flags in insertion order, and the composite's own `running` flag. -/
structure CompState where
  childRunning : List Bool
  running : Bool
  deriving DecidableEq, Repr

/-- A fresh composite of `n` children: no child running, composite not
running. -/
def CompState.init (n : Nat) : CompState :=
  { childRunning := List.replicate n false, running := false }

/-- `HasRunnables._on_start` (lines 38-40): if the composite is not yet
running and every child is, `super().start()` sets the composite's
`running`. -/
def onStart (c : CompState) : CompState :=
  if !c.running && c.childRunning.all id then { c with running := true }
  else c

/-- Child `i` signals running: its `running` flag is set, and the `on_set`
callback `_on_start` registered on that flag fires. -/
def childSignal (c : CompState) (i : Nat) : CompState :=
  onStart { c with childRunning := c.childRunning.set i true }

/-- Run a whole sequence of child running-signals, in order. -/
def compExec (c : CompState) (es : List Nat) : CompState :=
  es.foldl childSignal c

/-! ### Delegation order of `stop`/`finish`/`join`

`stop` clears the composite's own `running` and then iterates over
`reversed(self.runnables)` calling each child's `stop`; `finish` and `join`
iterate over `reversed(self.runnables)` as well.  We record the delegated
calls as a trace over abstract child labels. -/

/-- Actions performed by the composite's `stop`/`finish`/`join` on itself
and on its children. -/
inductive HRAct (α : Type) where
  | clearOwnRunning : HRAct α
  | stopChild : α → HRAct α
  | finishChild : α → HRAct α
  | joinChild : α → HRAct α
  deriving DecidableEq, Repr

/-- `HasRunnables.stop` (lines 25-28): `self.running.clear()` first, then
`r.stop()` for `r` in `reversed(self.runnables)`. -/
def hrStopTrace {α : Type} (runnables : List α) : List (HRAct α) :=
  .clearOwnRunning :: runnables.reverse.map .stopChild

/-- `HasRunnables.finish` (lines 30-32): `r.finish()` for `r` in
`reversed(self.runnables)`. -/
def hrFinishTrace {α : Type} (runnables : List α) : List (HRAct α) :=
  runnables.reverse.map .finishChild

/-- `HasRunnables.join` (lines 34-36): `r.join(timeout)` for `r` in
`reversed(self.runnables)`. -/
def hrJoinTrace {α : Type} (runnables : List α) : List (HRAct α) :=
  runnables.reverse.map .joinChild

/-! ## `ThreadQueue` (`src/threa/collection.py`, lines 53-131)

### Construction (`__post_init__`, lines 90-100)

`__post_init__` builds one `HasThread` per `i in range(thread_count)` with
keyword arguments `callback`, `exception`, `join_on_exit`, `name`.
`HasThread` is a `@dataclass` whose bases (`ThreadBase`, `Runnable`) are
not dataclasses, so its generated `__init__` accepts exactly the keywords
annotated on `HasThread` itself: `callback`, `exception`, `daemon`, `log`,
`looping`, `name`.  A keyword outside that set makes the call raise
`TypeError`. -/

/-- The dataclass fields of `HasThread` (`src/threa/thread.py`,
lines 157-179): the keywords its generated `__init__` accepts. -/
def hasThreadFields : List String :=
  ["callback", "exception", "daemon", "log", "looping", "name"]

/-- The keyword arguments `ThreadQueue.__post_init__` passes to
`HasThread(...)` for each worker (lines 91-97). -/
def threadQueueWorkerKwargs : List String :=
  ["callback", "exception", "join_on_exit", "name"]

/-- Calling a dataclass constructor with keyword arguments: `TypeError`
when any keyword is not a field of the dataclass, normal completion
otherwise. -/
def dataclassInit (fields kwargs : List String) : Except String Unit :=
  match kwargs.find? (fun k => !fields.contains k) with
  | some k => .error ("TypeError: unexpected keyword argument " ++ k)
  | none => .ok ()

/-- `ThreadQueue.__post_init__` (lines 90-100): constructs the tuple
`thread(i) for i in range(thread_count)`; the first worker construction
that raises aborts the whole constructor with that exception. -/
def threadQueueInit (thread_count : Nat) : Except String Unit :=
  (List.range thread_count).foldlM
    (fun _ _ => dataclassInit hasThreadFields threadQueueWorkerKwargs)
    ()

/-! ### The running pool (`_callback` and `stop`, lines 102-131)

We model a pool of `n` workers in their steady state (every worker inside
`_callback`'s polling loop).  The user callback is modelled by
`cb : Nat → Bool`, `cb item = true` meaning the callback raises on `item`.
A schedule is a list of worker indices; each entry lets that worker perform
one iteration of `_callback`'s `while self.running` loop (or, if the pool's
`running` is already down, lets the worker leave `_callback` and wind down
through `HasThread.run`). -/

/-- Observable state of a running `ThreadQueue` with its workers. -/
structure TQState where
  poolRunning : Bool
  poolStopped : Bool
  workerRunning : List Bool
  workerStopped : List Bool
  queue : List Nat
  handled : List Nat
  deriving DecidableEq, Repr

/-- A steady-state pool of `n` workers: pool and all workers running, the
given items queued, nothing handled yet. -/
def TQState.steady (n : Nat) (items : List Nat) : TQState :=
  { poolRunning := true
    poolStopped := false
    workerRunning := List.replicate n true
    workerStopped := List.replicate n false
    queue := items
    handled := [] }

/-- `ThreadQueue.stop` = `HasRunnables.stop`: clear the pool's `running`,
then stop every worker (in reverse order; each `HasThread.stop` clears that
worker's `running`). -/
def tqStop (s : TQState) : TQState :=
  { s with
    poolRunning := false
    workerRunning := s.workerRunning.map fun _ => false }

/-- Worker `w` leaves `_callback` and `HasThread.run` winds down: the
worker's `running` is cleared by `stop()` and its `stopped` event is set;
the `_on_stop` callback then sets the pool's `stopped` (via
`Runnable.stop`, which also clears the pool's `running`) once every worker
is stopped (lines 42-44 of `collection.py`). -/
def workerWindDown (s : TQState) (w : Nat) : TQState :=
  let s1 := { s with
    workerRunning := s.workerRunning.set w false
    workerStopped := s.workerStopped.set w true }
  if !s1.poolStopped && s1.workerStopped.all id then
    { s1 with poolRunning := false, poolStopped := true }
  else s1

/-- One schedule step for worker `w`, modelling one iteration of
`ThreadQueue._callback`'s loop (lines 120-131):
* a worker that has already stopped does nothing;
* if the pool's `running` is down, `_callback` returns and the worker winds
  down;
* otherwise the worker polls the queue: an empty queue is the `Empty`
  timeout branch (`continue`); a queued item is dequeued and passed to the
  user callback — on success it is handled and the loop continues, on an
  exception `self.stop()` stops the whole pool and the re-raised exception
  makes that worker wind down through `HasThread.run`'s fault path. -/
def tqWorkerStep (cb : Nat → Bool) (s : TQState) (w : Nat) : TQState :=
  if s.workerStopped.getD w false then s
  else if !s.poolRunning then workerWindDown s w
  else
    match s.queue with
    | [] => s
    | item :: rest =>
      if cb item then
        workerWindDown (tqStop { s with queue := rest }) w
      else
        { s with queue := rest, handled := s.handled ++ [item] }

/-- Run a whole schedule of worker steps. -/
def tqExec (cb : Nat → Bool) (s : TQState) (sched : List Nat) : TQState :=
  sched.foldl (tqWorkerStep cb) s

/-! ## Theorems settling the claims -/

/-- Claim C5: for every `Runnable` used as a context manager, entering
calls `start()` (and returns the handle); exiting with no exception or with
`KeyboardInterrupt` calls `finish()` and then `join()` exactly when
`join_on_exit` is true; exiting with any other exception calls `stop()`
only, with neither `finish()` nor `join()` invoked. -/
theorem c5_context_manager (j : Bool) :
    runnableEnter = [RAct.callStart] ∧
    runnableExit j none = .callFinish :: (if j then [.callJoin] else []) ∧
    runnableExit j (some .keyboardInterrupt) =
      .callFinish :: (if j then [.callJoin] else []) ∧
    (RAct.callJoin ∈ runnableExit j none ↔ j = true) ∧
    runnableExit j (some .other) = [.callStop] ∧
    RAct.callFinish ∉ runnableExit j (some .other) ∧
    RAct.callJoin ∉ runnableExit j (some .other) := by
  cases j <;> simp [runnableEnter, runnableExit]

/-- Claim C8: `HasRunnables.stop` first clears the composite running flag
and then stops the children in reverse insertion order; `finish` and `join`
also visit the children in reverse insertion order.  Writing the children
as `l1 ++ a :: l2`, every child of `l2` (inserted after `a`) is visited
before `a`, and every child of `l1` after `a`. -/
theorem c8_reverse_order {α : Type} (l1 : List α) (a : α) (l2 : List α) :
    hrStopTrace (l1 ++ a :: l2) =
      .clearOwnRunning ::
        (l2.reverse.map .stopChild ++ .stopChild a :: l1.reverse.map .stopChild) ∧
    hrFinishTrace (l1 ++ a :: l2) =
      l2.reverse.map .finishChild ++ .finishChild a :: l1.reverse.map .finishChild ∧
    hrJoinTrace (l1 ++ a :: l2) =
      l2.reverse.map .joinChild ++ .joinChild a :: l1.reverse.map .joinChild := by
  refine ⟨?_, ?_, ?_⟩ <;>
    simp [hrStopTrace, hrFinishTrace, hrJoinTrace, List.reverse_append]

/-- Claim C10: `Wrapper.start` sets the wrapper running flag before the
wrapped start is invoked (the flag mutation precedes the delegated call in
the trace), `Wrapper.stop` clears running and sets stopped before the
wrapped stop is invoked, and the resulting flag values do not depend on the
wrapped object at all (the flag conjuncts hold for every capability set
`w`). -/
theorem c10_wrapper_flags (w : WrappedCaps) (s : RState) :
    (wrapperStart w s).running = true ∧
    (wrapperStart w s).trace =
      s.trace ++ [.setOwnRunning true] ++
        (if w.hasStart then [.wrappedStart] else []) ∧
    (wrapperStop w s).running = false ∧
    (wrapperStop w s).stopped = true ∧
    (wrapperStop w s).trace =
      s.trace ++ [.setOwnRunning false, .setOwnStopped true] ++
        (if w.hasStop then [.wrappedStop] else []) := by
  refine ⟨?_, ?_, ?_, ?_, ?_⟩ <;>
    cases hs : w.hasStart <;> cases ht : w.hasStop <;>
      simp [wrapperStart, wrapperStop, runnableStart, runnableStop, hs, ht]

/-- Claim C4 counterexample: `ThreadBase.stop` only clears `running`
(`self.running.clear()`), so on a running, not yet stopped `ThreadBase` the
claimed postcondition "running is false and stopped is true" is false after
`stop()` returns: `stopped` is still false. -/
theorem c4_counterexample :
    ¬ ((tbStop ⟨true, false, 0, []⟩).running = false ∧
       (tbStop ⟨true, false, 0, []⟩).stopped = true) := by
  decide

/-- Claim C4, amended: every `stop()` in the library is a total function of
the state (it never raises).  `Runnable.stop` and `Wrapper.stop` clear
`running` and set `stopped`, with the `running` mutation preceding the
`stopped` mutation in the trace; `ThreadBase.stop` clears `running` and
leaves `stopped` unchanged (it is set later, when the run loop exits); the
composite `stop` of `HasRunnables`/`ThreadQueue` clears the composite
`running` and leaves the composite `stopped` to the all-children-stopped
callback. -/
theorem c4_stop_flags (s : RState) (w : WrappedCaps) (t : TBState)
    (q : TQState) :
    (runnableStop s).running = false ∧
    (runnableStop s).stopped = true ∧
    (runnableStop s).trace =
      s.trace ++ [.setOwnRunning false, .setOwnStopped true] ∧
    (wrapperStop w s).running = false ∧
    (wrapperStop w s).stopped = true ∧
    (tbStop t).running = false ∧
    (tbStop t).stopped = t.stopped ∧
    (tqStop q).poolRunning = false ∧
    (tqStop q).poolStopped = q.poolStopped := by
  refine ⟨?_, ?_, ?_, ?_, ?_, ?_, ?_, ?_, ?_⟩ <;>
    cases ht : w.hasStop <;>
      simp [runnableStop, wrapperStop, tbStop, tqStop, ht]

/-- Claim C2 counterexample: when `pre_run()` raises, `run()` returns from
the `except` branch before reaching `self.stopped.set()`, so `stopped`
remains false — contrary to the claim that the stopped flag is still set.
Here `run` terminates (`some`) with `stopped = false`. -/
theorem c2_counterexample :
    tbRun ⟨false, none⟩ false [] TBState.init =
      some { running := false, stopped := false, errLog := 1,
             handlerCalls := [] } := by
  decide

/-- Claim C2, amended: when `pre_run()` raises, `run()` catches the fault
(it returns normally), logs it (`errLog` grows by one), never sets
`running`, and returns *without* setting `stopped` (the early `return`
skips `self.stopped.set()`); `stopped` is set only when the while-loop
itself exits, i.e. on every terminating run with `pre_run` succeeding. -/
theorem c2_pre_run_fault (cfg : TBConfig) (script : List CallRes)
    (s : TBState) :
    tbRun cfg false script s =
      some { s with errLog := s.errLog + 1, running := false } ∧
    (tbRun cfg true script s).elim True (fun s1 => s1.stopped = true) := by
  constructor
  · simp [tbRun, tbError, tbStop]
  · simp only [tbRun, if_pos]
    cases tbLoop cfg script { s with running := true } <;> simp

/-- In a looping `ThreadBase`, a prefix of successful callback invocations
leaves the loop state unchanged. -/
theorem tbLoop_replicate_ok (cfg : TBConfig) (hl : cfg.looping = true)
    (k : Nat) (rest : List CallRes) (s : TBState) (hr : s.running = true) :
    tbLoop cfg (List.replicate k .ok ++ rest) s = tbLoop cfg rest s := by
  induction k with
  | zero => simp
  | succ m ih =>
    simp only [List.replicate_succ, List.cons_append, tbLoop, hr, if_pos,
      List.append_eq]
    have hb : tbLoopBody cfg s .ok = s := by simp [tbLoopBody, hl]
    rw [hb, ih]

/-- Claim C6: for a `ThreadBase` with an exception handler configured whose
callback raises (after `k` successful invocations, with `looping = true`),
the handler is invoked exactly once, with the original fault payload
(`handlerCalls = [e]`); the run loop returns normally (`some`, so the fault
does not propagate out of it — every path of `run` catches it); and the
loop then ends through `stop()`: `running` is false and `stopped` is set.
This holds whether or not the handler itself raises (`hr`); a raising
handler additionally logs one traceback. -/
theorem c6_handler_once (k e : Nat) (hr : Nat → Bool) :
    tbRun ⟨true, some hr⟩ true (List.replicate k .ok ++ [.exc e])
        TBState.init =
      some { running := false, stopped := true,
             errLog := if hr e then 1 else 0, handlerCalls := [e] } := by
  simp only [tbRun, if_pos]
  rw [tbLoop_replicate_ok ⟨true, some hr⟩ rfl k [.exc e] _ rfl]
  simp only [tbLoop, tbLoopBody, TBState.init]
  cases h : hr e <;> simp [h, tbError, tbStop, tbLoop]

/-- The first of the two callbacks used in the claim C9 counterexample:
records `0` in the ambient state, then raises exception `5`. -/
def c9raising : EvCallback (List Nat) := fun s => (s ++ [0], some 5)

/-- The second of the two callbacks used in the claim C9 counterexample:
records `1` in the ambient state and returns normally. -/
def c9recording : EvCallback (List Nat) := fun s => (s ++ [1], none)

/-- Claim C9 counterexample: with two registered callbacks of which the
first raises, `Event.set` still updates the boolean state, but the second
callback is *not* invoked (the ambient state records only `[0]`, not
`[0, 1]`) and the fault surfaces immediately rather than after all
callbacks have been attempted. -/
theorem c9_counterexample :
    eventSet { value := false, on_set := [c9raising, c9recording] }
        ([] : List Nat) =
      ({ value := true, on_set := [c9raising, c9recording] }, [0], some 5) := by
  rfl

/-- Callbacks that do not raise are threaded through `runCallbacks`
left to right. -/
theorem runCallbacks_ok_front {σ : Type} (pre : List (σ → σ))
    (rest : List (EvCallback σ)) (s : σ) :
    runCallbacks (pre.map (fun f s1 => (f s1, none)) ++ rest) s =
      runCallbacks rest (pre.foldl (fun s1 f => f s1) s) := by
  induction pre generalizing s with
  | nil => simp
  | cons f fs ih => simp [runCallbacks, ih]

/-- Claim C9, amended: with callbacks registered in order
`pre ++ [raising] ++ post`, where the `pre` callbacks return normally and
the distinguished one raises `e` after its own state effect, `set()` still
updates the boolean state to true; the callbacks before the raising one run
in registration order; the callbacks *after* it are skipped (the result
does not depend on `post`); and the fault `e` surfaces to the caller of
`set` immediately. -/
theorem c9_first_fault_aborts {σ : Type} (pre : List (σ → σ)) (e : Nat)
    (badEff : σ → σ) (post : List (EvCallback σ)) (v : Bool) (s : σ) :
    eventSet
        { value := v,
          on_set := pre.map (fun f s1 => (f s1, none)) ++
            (fun s1 => (badEff s1, some e)) :: post } s =
      ({ value := true,
         on_set := pre.map (fun f s1 => (f s1, none)) ++
           (fun s1 => (badEff s1, some e)) :: post },
       badEff (pre.foldl (fun s1 f => f s1) s), some e) := by
  have h1 := runCallbacks_ok_front pre
    ((fun s1 => (badEff s1, some e)) :: post) s
  simp [eventSet, h1, runCallbacks]

/-- Claim C3: evaluating the construction of `ThreadQueue` at the failing
input.  For every `thread_count ≥ 1`, `__post_init__` calls
`HasThread(callback=..., exception=..., join_on_exit=..., name=...)`, and
`join_on_exit` is not a dataclass field of `HasThread` (its bases are not
dataclasses), so the constructor raises `TypeError` instead of yielding the
workers. -/
theorem c3_construction_raises (n : Nat) (h : 1 ≤ n) :
    threadQueueInit n =
      .error "TypeError: unexpected keyword argument join_on_exit" := by
  cases n with
  | zero => exact absurd h (by decide)
  | succ m =>
    rw [threadQueueInit, List.range_succ_eq_map, List.foldlM_cons]
    rfl

/-- Claim C3 witness: the concrete failing input `thread_count = 1`
(`ThreadQueue(callback=f)` as the repository test suite builds it). -/
theorem c3_construction_raises_witness :
    1 ≤ 1 ∧
    threadQueueInit 1 =
      .error "TypeError: unexpected keyword argument join_on_exit" :=
  ⟨by decide, c3_construction_raises 1 (by decide)⟩

/-- Setting one entry of an all-true boolean list to true keeps it
all-true. -/
theorem all_set_true (l : List Bool) (i : Nat) (h : l.all id = true) :
    (l.set i true).all id = true := by
  induction l generalizing i with
  | nil => simp
  | cons b bs ih =>
    cases i with
    | zero => simp_all [List.set]
    | succ j => simp_all [List.set]

/-- One child running-signal preserves the composite invariant: the
composite `running` flag equals the conjunction of the children flags. -/
theorem childSignal_inv (c : CompState) (i : Nat)
    (h : c.running = c.childRunning.all id) :
    (childSignal c i).running = (childSignal c i).childRunning.all id := by
  unfold childSignal onStart
  cases hall : (c.childRunning.set i true).all id with
  | true => cases hr : c.running <;> simp [hall, hr]
  | false =>
    have horig : c.childRunning.all id = false := by
      cases horig : c.childRunning.all id
      · rfl
      · exact absurd (all_set_true _ i horig) (by simp [hall])
    simp [hall, h, horig]

/-- One child running-signal never clears the composite `running` flag. -/
theorem childSignal_mono (c : CompState) (i : Nat) (h : c.running = true) :
    (childSignal c i).running = true := by
  simp [childSignal, onStart, h]

/-- The composite invariant is preserved by any sequence of child
running-signals. -/
theorem compExec_inv (es : List Nat) (c : CompState)
    (h : c.running = c.childRunning.all id) :
    (compExec c es).running = (compExec c es).childRunning.all id := by
  induction es generalizing c with
  | nil => exact h
  | cons e es ih => exact ih (childSignal c e) (childSignal_inv c e h)

/-- A composite that is running stays running under further child
running-signals. -/
theorem compExec_mono (es : List Nat) (c : CompState)
    (h : c.running = true) : (compExec c es).running = true := by
  induction es generalizing c with
  | nil => exact h
  | cons e es ih => exact ih (childSignal c e) (childSignal_mono c e h)

/-- Claim C7: for a composite of `n ≥ 1` children from the fresh state,
after any sequence of child running-signals (in any order, with any
repetitions) the composite `running` flag is true exactly when every child
flag is true — so it becomes true only once all children are running — and
once true it remains true under any further signals, so it flips to true
exactly once. -/
theorem c7_composite_running (n : Nat) (hn : 1 ≤ n)
    (es extra : List Nat) :
    (compExec (CompState.init n) es).running =
      (compExec (CompState.init n) es).childRunning.all id ∧
    ((compExec (CompState.init n) es).running = true →
      (compExec (CompState.init n) (es ++ extra)).running = true) := by
  have hinit : (CompState.init n).running =
      (CompState.init n).childRunning.all id := by
    cases n with
    | zero => exact absurd hn (by decide)
    | succ m => simp [CompState.init, List.replicate_succ]
  refine ⟨compExec_inv es _ hinit, fun h => ?_⟩
  rw [compExec, List.foldl_append]
  exact compExec_mono extra _ h

/-- Claim C7 witness: two children signalling in order `0`, `1`, then a
further spurious signal. -/
theorem c7_composite_running_witness :
    1 ≤ 2 ∧
    ((compExec (CompState.init 2) [0, 1]).running =
        (compExec (CompState.init 2) [0, 1]).childRunning.all id ∧
      ((compExec (CompState.init 2) [0, 1]).running = true →
        (compExec (CompState.init 2) ([0, 1] ++ [1])).running = true)) :=
  ⟨by decide, c7_composite_running 2 (by decide) [0, 1] [1]⟩

/-- The user callback of the claim C1 scenario: raises on item `0`,
returns normally on everything else. -/
def c1FaultCb : Nat → Bool := fun i => i == 0

/-- Claim C1 counterexample: a pool of 2 workers in steady state with items
`[0, 1]` queued; worker 0 dequeues item 0 and the user callback raises;
`_callback` calls `self.stop()` (the whole pool) before re-raising.  After
worker 0 faults and worker 1 takes its next loop iteration, the pool
`running` flag is false (not still set, as claimed), the sibling worker is
no longer running (it has wound down), and item 1 is still in the queue,
never delivered to any worker (`handled = []`). -/
theorem c1_counterexample :
    tqExec c1FaultCb (TQState.steady 2 [0, 1]) [0, 1] =
      { poolRunning := false, poolStopped := true,
        workerRunning := [false, false], workerStopped := [true, true],
        queue := [1], handled := [] } := by
  rfl

/-- Every entry of an all-false list with one entry overwritten by false is
false. -/
theorem mem_set_false (l : List Bool) (w : Nat) (b : Bool)
    (hb : b ∈ (l.map (fun _ => false)).set w false) : b = false := by
  rcases List.mem_or_eq_of_mem_set hb with h | h
  · rcases List.mem_map.mp h with ⟨a, _, ha⟩
    exact ha.symm
  · exact h

/-- Claim C1, amended: whenever a live worker of a running pool dequeues an
item on which the user callback raises, that single step stops the *entire*
pool — `_callback` calls `self.stop()` before re-raising — so the pool
`running` flag is cleared and every worker `running` flag is cleared;
items remaining in the queue may never be delivered. -/
theorem c1_fault_stops_pool (cb : Nat → Bool) (s : TQState) (w item : Nat)
    (rest : List Nat) (hq : s.queue = item :: rest) (hcb : cb item = true)
    (hws : s.workerStopped.getD w false = false)
    (hpr : s.poolRunning = true) :
    (tqWorkerStep cb s w).poolRunning = false ∧
    ∀ b ∈ (tqWorkerStep cb s w).workerRunning, b = false := by
  have hws2 : s.workerStopped[w]?.getD false = false := by
    simpa [List.getD] using hws
  have hstep : tqWorkerStep cb s w =
      workerWindDown (tqStop { s with queue := rest }) w := by
    simp [tqWorkerStep, List.getD, hws2, hpr, hq, hcb]
  rw [hstep]
  unfold workerWindDown tqStop
  constructor
  · dsimp only
    split <;> simp
  · intro b hb
    dsimp only at hb
    split at hb <;> exact mem_set_false _ w b hb

/-- Claim C1 witness: the concrete faulting step of the counterexample
scenario — worker 0 of a steady 2-worker pool dequeues item 0, on which
the callback raises. -/
theorem c1_fault_stops_pool_witness :
    (tqWorkerStep c1FaultCb (TQState.steady 2 [0, 1]) 0).poolRunning =
      false ∧
    ∀ b ∈ (tqWorkerStep c1FaultCb (TQState.steady 2 [0, 1]) 0).workerRunning,
      b = false :=
  c1_fault_stops_pool c1FaultCb (TQState.steady 2 [0, 1]) 0 0 [1]
    rfl rfl rfl rfl

end Threa
